import Mathlib

/-!
Verification of the inventory-management core (SQLite-backed Python app):
the four-table data model, the CRUD layer (`crud_operations.py`), the
derived-stock ledger queries (`database.py`) and the top-valued-products
report query (`reports.py`), shallowly embedded as pure functions over an
explicit store state.
-/

namespace SQL310

/-- Row of the `categories` table (`database.py`, `create_tables`):
`id` PK, `name` NOT NULL UNIQUE, `description` nullable. -/
structure Category where
  id : Nat
  name : String
  description : Option String
deriving DecidableEq

/-- Row of the `suppliers` table: `id` PK, `name` NOT NULL,
`contact_info` and `address` nullable. -/
structure Supplier where
  id : Nat
  name : String
  contact_info : Option String
  address : Option String
deriving DecidableEq

/-- Row of the `products` table: `id` PK, `name` NOT NULL, `description`
nullable, `category_id` nullable FK to categories, `price` REAL NOT NULL
(modelled as `Rat`), `reorder_level` INTEGER. -/
structure Product where
  id : Nat
  name : String
  description : Option String
  category_id : Option Nat
  price : Rat
  reorder_level : Int
deriving DecidableEq

/-- Row of the `inventory_transactions` table: `id` PK, `product_id` NOT NULL
FK to products, `transaction_type` TEXT with CHECK in {IN, OUT, ADJUSTMENT},
`quantity` INTEGER NOT NULL, `supplier_id` nullable FK to suppliers,
`notes` nullable.  The `date` column is not modelled (no verified claim
mentions it). -/
structure Transaction where
  id : Nat
  product_id : Nat
  transaction_type : String
  quantity : Int
  supplier_id : Option Nat
  notes : Option String
deriving DecidableEq

/-- The store state: the four tables plus the AUTOINCREMENT counters
(`lastrowid` sources). -/
structure DB where
  categories : List Category
  suppliers : List Supplier
  products : List Product
  transactions : List Transaction
  next_category_id : Nat
  next_supplier_id : Nat
  next_product_id : Nat
  next_transaction_id : Nat
deriving DecidableEq

/-- A freshly created store (after `create_tables`): all tables empty,
AUTOINCREMENT counters at 1. -/
def dbEmpty : DB := ⟨[], [], [], [], 1, 1, 1, 1⟩

/-- The `CASE WHEN transaction_type = 'IN' THEN quantity ELSE 0 END`
summand of the stock queries. -/
def txn_in_amount (t : Transaction) : Int :=
  if t.transaction_type = "IN" then t.quantity else 0

/-- The `CASE WHEN transaction_type = 'OUT' THEN quantity ELSE 0 END`
summand of the stock queries. -/
def txn_out_amount (t : Transaction) : Int :=
  if t.transaction_type = "OUT" then t.quantity else 0

/-- The stock aggregation shared by every stock query in the source
(`crud_operations.get_product_stock`, the GROUP BY branches in
`database.py` and `reports.py`): over the transactions of one product,
`COALESCE(SUM(CASE IN...),0) - COALESCE(SUM(CASE OUT...),0)`. -/
def stock_of_list (l : List Transaction) (pid : Nat) : Int :=
  let rows := l.filter (fun t => t.product_id == pid)
  (rows.map txn_in_amount).sum - (rows.map txn_out_amount).sum

/-- `CRUDOperations.get_product_stock` (crud_operations.py lines 270-281). -/
def get_product_stock (db : DB) (pid : Nat) : Int :=
  stock_of_list db.transactions pid

/-- Formalization of the spec sentence (spec-side, for comparison with the
source-derived `get_product_stock`): `stock(p) = Σ quantity where type=IN
and product_id=p − Σ quantity where type=OUT and product_id=p`. -/
def spec_stock (db : DB) (pid : Nat) : Int :=
  ((db.transactions.filter
      (fun t => t.transaction_type == "IN" && t.product_id == pid)).map
        (fun t => t.quantity)).sum -
  ((db.transactions.filter
      (fun t => t.transaction_type == "OUT" && t.product_id == pid)).map
        (fun t => t.quantity)).sum

/-- The `LEFT JOIN categories c ON p.category_id = c.id ... c.name` lookup:
the category name joined to a product row, `NULL` when the product has no
category (or a dangling reference). -/
def category_name_of (db : DB) (cid : Option Nat) : Option String :=
  match cid with
  | none => none
  | some c => (db.categories.find? (fun k => k.id == c)).map (fun k => k.name)

/-- One row of the grouped product/stock queries in `database.py`
(`get_current_inventory` / `get_low_stock_products` SELECT list). -/
structure InventoryRow where
  id : Nat
  name : String
  description : Option String
  category_name : Option String
  price : Rat
  reorder_level : Int
  current_stock : Int
deriving DecidableEq

/-- The row the GROUP BY of `database.py` produces for one product. -/
def inventory_row (db : DB) (p : Product) : InventoryRow :=
  ⟨p.id, p.name, p.description, category_name_of db p.category_id,
    p.price, p.reorder_level, get_product_stock db p.id⟩

/-- The `ORDER BY current_stock ASC` comparison of
`InventoryDatabase.get_low_stock_products`. -/
def stockLE (a b : InventoryRow) : Prop := a.current_stock ≤ b.current_stock

instance : DecidableRel stockLE := fun a b =>
  Int.decLe a.current_stock b.current_stock

instance : IsTotal InventoryRow stockLE :=
  ⟨fun a b => Int.le_total a.current_stock b.current_stock⟩

instance : IsTrans InventoryRow stockLE := ⟨fun _ _ _ => Int.le_trans⟩

/-- `InventoryDatabase.get_low_stock_products` (database.py lines 165-186):
per-product stock rows, `HAVING current_stock <= p.reorder_level`,
`ORDER BY current_stock ASC`. -/
def get_low_stock_products (db : DB) : List InventoryRow :=
  List.insertionSort stockLE
    ((db.products.map (inventory_row db)).filter
      (fun r => r.current_stock ≤ r.reorder_level))

/-- The result record of `InventoryDatabase.get_inventory_value`. -/
structure InventoryValue where
  total_value : Rat
  avg_price : Rat
  total_products : Nat
deriving DecidableEq

/-- `InventoryDatabase.get_inventory_value` (database.py lines 188-215):
over the per-product stock subquery, `SUM(current_stock * price)`,
`AVG(price)`, `COUNT(*)`; the Python layer turns the NULL aggregates of an
empty product table into zeroes (`result[0] or 0.0`). -/
def get_inventory_value (db : DB) : InventoryValue :=
  let n := db.products.length
  ⟨(db.products.map (fun p => (get_product_stock db p.id : Rat) * p.price)).sum,
    if n = 0 then 0 else (db.products.map (fun p => p.price)).sum / (n : Rat),
    n⟩

/-- Spec-side (for comparison): `totalValue = Σ currentStock(p) * price(p)`
over all products, with `currentStock` the spec's stock formula. -/
def spec_total_value (db : DB) : Rat :=
  (db.products.map (fun p => (spec_stock db p.id : Rat) * p.price)).sum

/-- Spec-side (for comparison): `avgPrice` is the unweighted mean of
`price` across all products, zero for an empty product set. -/
def spec_avg_price (db : DB) : Rat :=
  if db.products = [] then 0
  else (db.products.map (fun p => p.price)).sum / (db.products.length : Rat)

/-- One row of the top-5-most-valuable-products query in
`InventoryReports.generate_inventory_value_report` (reports.py 64-83). -/
structure TopRow where
  name : String
  category_name : Option String
  current_stock : Int
  price : Rat
  total_value : Rat
deriving DecidableEq

/-- The grouped row of the top-valued query for one product:
`(stock) * p.price as total_value`. -/
def top_row (db : DB) (p : Product) : TopRow :=
  ⟨p.name, category_name_of db p.category_id, get_product_stock db p.id,
    p.price, (get_product_stock db p.id : Rat) * p.price⟩

/-- The `ORDER BY total_value DESC` comparison of the top-valued query. -/
def valueGE (a b : TopRow) : Prop := b.total_value ≤ a.total_value

instance : DecidableRel valueGE := fun a b =>
  inferInstanceAs (Decidable (b.total_value ≤ a.total_value))

instance : IsTotal TopRow valueGE := ⟨fun a b => le_total b.total_value a.total_value⟩

instance : IsTrans TopRow valueGE := ⟨fun _ _ _ h1 h2 => le_trans h2 h1⟩

/-- The top-valued-products query of
`InventoryReports.generate_inventory_value_report`:
`HAVING current_stock > 0 ORDER BY total_value DESC LIMIT 5`. -/
def top_valued_products (db : DB) : List TopRow :=
  (List.insertionSort valueGE
    ((db.products.map (top_row db)).filter (fun r => 0 < r.current_stock))).take 5

/-- SQLite's ASCII case folding (default `LIKE` is case-insensitive for the
26 upper-case ASCII letters only). -/
def like_fold_char : Char → Char
  | 'A' => 'a'
  | 'B' => 'b'
  | 'C' => 'c'
  | 'D' => 'd'
  | 'E' => 'e'
  | 'F' => 'f'
  | 'G' => 'g'
  | 'H' => 'h'
  | 'I' => 'i'
  | 'J' => 'j'
  | 'K' => 'k'
  | 'L' => 'l'
  | 'M' => 'm'
  | 'N' => 'n'
  | 'O' => 'o'
  | 'P' => 'p'
  | 'Q' => 'q'
  | 'R' => 'r'
  | 'S' => 's'
  | 'T' => 't'
  | 'U' => 'u'
  | 'V' => 'v'
  | 'W' => 'w'
  | 'X' => 'x'
  | 'Y' => 'y'
  | 'Z' => 'z'
  | c => c

/-- A string's characters, ASCII-case-folded. -/
def like_fold (s : String) : List Char := s.data.map like_fold_char

/-- SQLite `LIKE` pattern matching over case-folded characters (no ESCAPE
clause in the source): `%` matches any sequence, `_` any single character,
anything else itself. -/
def like_pat_match : List Char → List Char → Bool
  | [], [] => true
  | [], _ :: _ => false
  | '%' :: ps, s =>
    like_pat_match ps s ||
      (match s with
       | [] => false
       | _ :: s1 => like_pat_match ('%' :: ps) s1)
  | '_' :: ps, s =>
    (match s with
     | [] => false
     | _ :: s1 => like_pat_match ps s1)
  | p :: ps, s =>
    (match s with
     | [] => false
     | c :: s1 => p == c && like_pat_match ps s1)
termination_by ps s => (ps.length, s.length)

/-- The `column LIKE '%term%'` test of `CRUDOperations.search_products`
(the search term is interpolated into the pattern, so `%`/`_` in the term
act as wildcards). -/
def search_like (term s : String) : Bool :=
  like_pat_match ('%' :: (like_fold term ++ ['%'])) (like_fold s)

/-- Spec-side notion of containment: `needle` occurs as a contiguous
sublist of `hay`. -/
def chars_contain (needle : List Char) : List Char → Bool
  | [] => needle.isEmpty
  | c :: rest => needle.isPrefixOf (c :: rest) || chars_contain needle rest

/-- Spec-side (for comparison): the claim's "name or description contains
the term as a case-insensitive substring" (`NULL` description matches
nothing). -/
def spec_ci_match (term : String) (p : Product) : Bool :=
  chars_contain (like_fold term) (like_fold p.name) ||
    (match p.description with
     | some d => chars_contain (like_fold term) (like_fold d)
     | none => false)

/-- The WHERE clause of `CRUDOperations.search_products`:
`p.name LIKE ? OR p.description LIKE ?` (a NULL description makes the
second disjunct NULL, i.e. not a match). -/
def product_matches (term : String) (p : Product) : Bool :=
  search_like term p.name ||
    (match p.description with
     | some d => search_like term d
     | none => false)

/-- One result row of `search_products`: the product joined with its
category name. -/
structure SearchRow where
  product : Product
  category_name : Option String
deriving DecidableEq

/-- The `ORDER BY p.name` comparison of `search_products`. -/
def nameLE (a b : SearchRow) : Prop := a.product.name ≤ b.product.name

instance : DecidableRel nameLE := fun a b =>
  inferInstanceAs (Decidable (a.product.name ≤ b.product.name))

instance : IsTotal SearchRow nameLE :=
  ⟨fun a b => le_total a.product.name b.product.name⟩

instance : IsTrans SearchRow nameLE := ⟨fun _ _ _ => le_trans⟩

/-- `CRUDOperations.search_products` (crud_operations.py lines 283-294). -/
def search_products (db : DB) (term : String) : List SearchRow :=
  List.insertionSort nameLE
    ((db.products.filter (product_matches term)).map
      (fun p => ⟨p, category_name_of db p.category_id⟩))

/-- `CRUDOperations.create_category` (lines 10-21): the UNIQUE constraint
on `categories.name` makes a duplicate insert raise; the handler turns
that into `None` with the store unchanged. -/
def create_category (db : DB) (nm : String) (d : Option String) :
    Option Nat × DB :=
  if db.categories.any (fun c => c.name == nm) then (none, db)
  else
    (some db.next_category_id,
      { db with
          categories := db.categories ++ [⟨db.next_category_id, nm, d⟩],
          next_category_id := db.next_category_id + 1 })

/-- `CRUDOperations.create_product` (lines 124-135): the FK on
`category_id` (when non-NULL) makes a dangling insert raise; the handler
turns that into `None`.  Price and reorder level are not validated. -/
def create_product (db : DB) (nm : String) (d : Option String)
    (cid : Option Nat) (pr : Rat) (rl : Int) : Option Nat × DB :=
  if (match cid with
      | none => true
      | some c => db.categories.any (fun k => k.id == c)) then
    (some db.next_product_id,
      { db with
          products := db.products ++ [⟨db.next_product_id, nm, d, cid, pr, rl⟩],
          next_product_id := db.next_product_id + 1 })
  else (none, db)

/-- `CRUDOperations.update_product` (lines 160-171): full-row replace;
returns `rowcount > 0`; a dangling `category_id` raises and yields
`False` with the store unchanged.  Price is not validated. -/
def update_product (db : DB) (pid : Nat) (nm : String) (d : Option String)
    (cid : Option Nat) (pr : Rat) (rl : Int) : Bool × DB :=
  if (match cid with
      | none => true
      | some c => db.categories.any (fun k => k.id == c)) then
    (db.products.any (fun p => p.id == pid),
      { db with
          products := db.products.map (fun p =>
            if p.id == pid then ⟨p.id, nm, d, cid, pr, rl⟩ else p) })
  else (false, db)

/-- The Python-side validation of `create_transaction` /
`update_transaction`: `transaction_type in ['IN', 'OUT', 'ADJUSTMENT']`. -/
def valid_tx_type (tt : String) : Bool :=
  tt == "IN" || tt == "OUT" || tt == "ADJUSTMENT"

/-- `CRUDOperations.create_transaction` (lines 193-208): the type check
runs before any store call (`raise ValueError` caught by the same
handler); the FKs on `product_id` and nullable `supplier_id` make a
dangling insert raise.  Quantity is not validated. -/
def create_transaction (db : DB) (pid : Nat) (tt : String) (q : Int)
    (sid : Option Nat) (nt : Option String) : Option Nat × DB :=
  if valid_tx_type tt then
    if db.products.any (fun p => p.id == pid) then
      if (match sid with
          | none => true
          | some s => db.suppliers.any (fun x => x.id == s)) then
        (some db.next_transaction_id,
          { db with
              transactions :=
                db.transactions ++ [⟨db.next_transaction_id, pid, tt, q, sid, nt⟩],
              next_transaction_id := db.next_transaction_id + 1 })
      else (none, db)
    else (none, db)
  else (none, db)

/-- `CRUDOperations.delete_category` (lines 47-64): refuses when any
product references the category, otherwise deletes and returns
`rowcount > 0`. -/
def delete_category (db : DB) (cid : Nat) : Bool × DB :=
  if db.products.any (fun p => p.category_id == some cid) then (false, db)
  else
    (db.categories.any (fun c => c.id == cid),
      { db with categories := db.categories.filter (fun c => !(c.id == cid)) })

/-- `CRUDOperations.delete_supplier` (lines 104-121): refuses when any
transaction references the supplier. -/
def delete_supplier (db : DB) (sid : Nat) : Bool × DB :=
  if db.transactions.any (fun t => t.supplier_id == some sid) then (false, db)
  else
    (db.suppliers.any (fun s => s.id == sid),
      { db with suppliers := db.suppliers.filter (fun s => !(s.id == sid)) })

/-- `CRUDOperations.delete_product` (lines 173-190): refuses when any
transaction references the product. -/
def delete_product (db : DB) (pid : Nat) : Bool × DB :=
  if db.transactions.any (fun t => t.product_id == pid) then (false, db)
  else
    (db.products.any (fun p => p.id == pid),
      { db with products := db.products.filter (fun p => !(p.id == pid)) })

/-- `CRUDOperations.delete_transaction` (lines 259-267): no dependency
check at all; deletes and returns `rowcount > 0`. -/
def delete_transaction (db : DB) (tid : Nat) : Bool × DB :=
  (db.transactions.any (fun t => t.id == tid),
    { db with transactions := db.transactions.filter (fun t => !(t.id == tid)) })

/-! ### Ledger arithmetic lemmas -/

theorem stock_of_list_nil (pid : Nat) : stock_of_list [] pid = 0 := rfl

theorem stock_of_list_cons (t : Transaction) (l : List Transaction) (pid : Nat) :
    stock_of_list (t :: l) pid =
      (if t.product_id = pid then txn_in_amount t - txn_out_amount t else 0) +
        stock_of_list l pid := by
  simp only [stock_of_list, List.filter_cons]
  by_cases h : t.product_id = pid
  · simp only [h, beq_self_eq_true, if_true, List.map_cons, List.sum_cons]
    ring
  · simp [h]

theorem stock_of_list_append_single (l : List Transaction) (t : Transaction)
    (pid : Nat) :
    stock_of_list (l ++ [t]) pid =
      stock_of_list l pid +
        (if t.product_id = pid then txn_in_amount t - txn_out_amount t else 0) := by
  induction l with
  | nil => simp [stock_of_list_cons, stock_of_list_nil]
  | cons u l ih =>
    rw [List.cons_append, stock_of_list_cons, ih, stock_of_list_cons]
    ring

theorem stock_of_list_perm {l l' : List Transaction} (h : l.Perm l') (pid : Nat) :
    stock_of_list l pid = stock_of_list l' pid := by
  have hf := h.filter (fun t => t.product_id == pid)
  simp only [stock_of_list]
  rw [(hf.map txn_in_amount).sum_eq, (hf.map txn_out_amount).sum_eq]

theorem stock_of_list_eq_zero {l : List Transaction} {pid : Nat}
    (h : ∀ t ∈ l, t.product_id ≠ pid) : stock_of_list l pid = 0 := by
  have : l.filter (fun t => t.product_id == pid) = [] := by
    apply List.filter_eq_nil_iff.mpr
    intro t ht
    simpa using h t ht
  simp [stock_of_list, this]

/-- The CASE-WHEN aggregation of the source equals the spec's
filter-then-sum formula on any transaction list. -/
theorem stock_of_list_eq_spec (l : List Transaction) (pid : Nat) :
    stock_of_list l pid =
      ((l.filter (fun t => t.transaction_type == "IN" && t.product_id == pid)).map
        (fun t => t.quantity)).sum -
      ((l.filter (fun t => t.transaction_type == "OUT" && t.product_id == pid)).map
        (fun t => t.quantity)).sum := by
  induction l with
  | nil => simp [stock_of_list_nil]
  | cons t l ih =>
    rw [stock_of_list_cons, ih]
    simp only [List.filter_cons]
    by_cases hp : t.product_id = pid
    · by_cases hin : t.transaction_type = "IN"
      · simp +decide only [hp, hin, txn_in_amount, txn_out_amount,
          beq_self_eq_true, Bool.and_self, if_true, if_false,
          List.map_cons, List.sum_cons]
        ring
      · by_cases hout : t.transaction_type = "OUT"
        · simp only [hp, hout, txn_in_amount, txn_out_amount, beq_self_eq_true,
            Bool.and_self, List.map_cons, List.sum_cons,
            if_neg hin, beq_iff_eq, if_pos hout, if_true]
          simp +decide only [if_false]
          ring
        · have h1 : (t.transaction_type == "IN") = false := by
            simpa using hin
          have h2 : (t.transaction_type == "OUT") = false := by
            simpa using hout
          simp [txn_in_amount, txn_out_amount, if_neg hin, if_neg hout, h1, h2]
    · have h3 : (t.product_id == pid) = false := by simpa using hp
      simp [txn_in_amount, txn_out_amount, h3]
      exact fun h => absurd h hp

theorem get_product_stock_eq_spec (db : DB) (pid : Nat) :
    get_product_stock db pid = spec_stock db pid :=
  stock_of_list_eq_spec db.transactions pid

/-- Removing one transaction by id removes, up to permutation, exactly that
transaction, when transaction ids are unique. -/
theorem perm_cons_filter_ne_id {l : List Transaction} {t : Transaction}
    (h1 : t ∈ l) (h2 : (l.map (fun u => u.id)).Nodup) :
    l.Perm (t :: l.filter (fun u => !(u.id == t.id))) := by
  induction l with
  | nil => cases h1
  | cons a l ih =>
    simp only [List.map_cons, List.nodup_cons] at h2
    rcases List.mem_cons.mp h1 with rfl | hmem
    · have hfl : l.filter (fun u => !(u.id == t.id)) = l := by
        apply List.filter_eq_self.mpr
        intro u hu
        have : u.id ≠ t.id := by
          intro he
          exact h2.1 (he ▸ List.mem_map_of_mem (fun u => u.id) hu)
        simpa using this
      have hc : (t :: l).filter (fun u => !(u.id == t.id)) = l := by
        simp [List.filter_cons, hfl]
      rw [hc]
    · have hne : a.id ≠ t.id := by
        intro he
        exact h2.1 (he ▸ List.mem_map_of_mem (fun u => u.id) hmem)
      have : (a :: l).filter (fun u => !(u.id == t.id)) =
          a :: l.filter (fun u => !(u.id == t.id)) := by
        simp [List.filter_cons, hne]
      rw [this]
      exact ((ih hmem h2.2).cons a).trans (List.Perm.swap t a _)

/-! ### LIKE-pattern lemmas -/

/-- A character list free of the SQL `LIKE` wildcards. -/
def wildcard_free (l : List Char) : Prop := ∀ c ∈ l, c ≠ '%' ∧ c ≠ '_'

instance (l : List Char) : Decidable (wildcard_free l) :=
  List.decidableBAll (fun c => c ≠ '%' ∧ c ≠ '_') l

theorem like_fold_char_ne {c : Char} (hp : c ≠ '%') (hu : c ≠ '_') :
    like_fold_char c ≠ '%' ∧ like_fold_char c ≠ '_' := by
  unfold like_fold_char
  split
  all_goals first
  | decide
  | exact ⟨hp, hu⟩

theorem wildcard_free_like_fold {s : String} (h : wildcard_free s.data) :
    wildcard_free (like_fold s) := by
  intro c hc
  rcases List.mem_map.mp hc with ⟨d, hd, rfl⟩
  exact like_fold_char_ne (h d hd).1 (h d hd).2

theorem like_pat_match_nil_percent (ps : List Char) :
    like_pat_match ('%' :: ps) [] = like_pat_match ps [] := by
  simp [like_pat_match]

theorem like_pat_match_cons_percent (ps : List Char) (c : Char) (s : List Char) :
    like_pat_match ('%' :: ps) (c :: s) =
      (like_pat_match ps (c :: s) || like_pat_match ('%' :: ps) s) := by
  simp [like_pat_match]

theorem like_pat_match_percent_any (s : List Char) :
    like_pat_match ['%'] s = true := by
  induction s with
  | nil => simp [like_pat_match]
  | cons c s ih => rw [like_pat_match_cons_percent]; simp [ih]

theorem like_pat_match_percent_iff (ps s : List Char) :
    like_pat_match ('%' :: ps) s = true ↔
      ∃ n, like_pat_match ps (s.drop n) = true := by
  induction s with
  | nil =>
    rw [like_pat_match_nil_percent]
    constructor
    · intro h; exact ⟨0, h⟩
    · rintro ⟨n, hn⟩; simpa using hn
  | cons c s ih =>
    rw [like_pat_match_cons_percent, Bool.or_eq_true, ih]
    constructor
    · rintro (h | ⟨n, hn⟩)
      · exact ⟨0, h⟩
      · exact ⟨n + 1, by simpa using hn⟩
    · rintro ⟨n, hn⟩
      cases n with
      | zero => exact Or.inl (by simpa using hn)
      | succ n => exact Or.inr ⟨n, by simpa using hn⟩

theorem like_pat_match_lit (ps : List Char) (hw : wildcard_free ps)
    (s : List Char) : like_pat_match (ps ++ ['%']) s = ps.isPrefixOf s := by
  induction ps generalizing s with
  | nil =>
    simp only [List.nil_append, like_pat_match_percent_any,
      List.isPrefixOf_nil_left]
  | cons p ps ih =>
    have hp := hw p (List.mem_cons_self p ps)
    have hw2 : wildcard_free ps := fun c hc => hw c (List.mem_cons_of_mem p hc)
    cases s with
    | nil => simp [like_pat_match, hp.1, hp.2]
    | cons c s => simp [like_pat_match, hp.1, hp.2, ih hw2,
        List.isPrefixOf_cons₂]

theorem chars_contain_iff (needle s : List Char) :
    chars_contain needle s = true ↔
      ∃ n, needle.isPrefixOf (s.drop n) = true := by
  induction s with
  | nil =>
    simp only [chars_contain, List.drop_nil]
    cases needle with
    | nil => simp
    | cons a as => simp
  | cons c s ih =>
    simp only [chars_contain, Bool.or_eq_true, ih]
    constructor
    · rintro (h | ⟨n, hn⟩)
      · exact ⟨0, by simpa using h⟩
      · exact ⟨n + 1, by simpa using hn⟩
    · rintro ⟨n, hn⟩
      cases n with
      | zero => exact Or.inl (by simpa using hn)
      | succ n => exact Or.inr ⟨n, by simpa using hn⟩

/-- For a wildcard-free search term, the source's `LIKE '%term%'` test is
exactly case-folded substring containment. -/
theorem search_like_eq_contains {term : String} (hw : wildcard_free term.data)
    (s : String) :
    search_like term s = chars_contain (like_fold term) (like_fold s) := by
  have hwf : wildcard_free (like_fold term) := wildcard_free_like_fold hw
  rw [Bool.eq_iff_iff]
  unfold search_like
  constructor
  all_goals intro h
  · rcases (like_pat_match_percent_iff _ _).mp h with ⟨n, hn⟩
    rw [like_pat_match_lit (like_fold term) hwf] at hn
    exact (chars_contain_iff _ _).mpr ⟨n, hn⟩
  · rcases (chars_contain_iff _ _).mp h with ⟨n, hn⟩
    refine (like_pat_match_percent_iff _ _).mpr ⟨n, ?_⟩
    rw [like_pat_match_lit (like_fold term) hwf]
    exact hn

/-- For a wildcard-free term, the WHERE clause of `search_products` agrees
with the spec's case-insensitive-substring predicate. -/
theorem product_matches_eq_spec {term : String} (hw : wildcard_free term.data)
    (p : Product) : product_matches term p = spec_ci_match term p := by
  unfold product_matches spec_ci_match
  rcases p.description with _ | d
  · simp [search_like_eq_contains hw]
  · simp [search_like_eq_contains hw]

/-! ### Claim theorems -/

/-- C1: for every product and ledger state, the derived current stock
(`get_product_stock`) equals the sum of IN quantities minus the sum of OUT
quantities for that product; a prepended ADJUSTMENT transaction contributes
0 to it; and a product with no transactions at all has stock exactly 0. -/
theorem c1_current_stock_derivation (db : DB) (pid : Nat) (t : Transaction)
    (ht : t.transaction_type = "ADJUSTMENT") :
    get_product_stock db pid = spec_stock db pid ∧
    get_product_stock { db with transactions := t :: db.transactions } pid =
      get_product_stock db pid ∧
    ((∀ u ∈ db.transactions, u.product_id ≠ pid) →
      get_product_stock db pid = 0) := by
  refine ⟨get_product_stock_eq_spec db pid, ?_, fun h => stock_of_list_eq_zero h⟩
  show stock_of_list (t :: db.transactions) pid = stock_of_list db.transactions pid
  rw [stock_of_list_cons]
  have h1 : txn_in_amount t = 0 := by simp +decide [txn_in_amount, ht]
  have h2 : txn_out_amount t = 0 := by simp +decide [txn_out_amount, ht]
  simp [h1, h2]

/-- The stores used by the concrete witnesses: one product carrying one IN
transaction. -/
def dbW1 : DB :=
  ⟨[], [], [⟨1, "Laptop", none, none, 999, 5⟩],
    [⟨1, 1, "IN", 5, none, none⟩], 1, 1, 2, 2⟩

theorem c1_current_stock_derivation_witness :
    (⟨7, 1, "ADJUSTMENT", 3, none, none⟩ : Transaction).transaction_type =
        "ADJUSTMENT" ∧
      (get_product_stock dbW1 1 = spec_stock dbW1 1 ∧
        get_product_stock
            { dbW1 with
                transactions :=
                  ⟨7, 1, "ADJUSTMENT", 3, none, none⟩ :: dbW1.transactions } 1 =
          get_product_stock dbW1 1 ∧
        ((∀ u ∈ dbW1.transactions, u.product_id ≠ 1) →
          get_product_stock dbW1 1 = 0)) :=
  ⟨rfl, c1_current_stock_derivation dbW1 1 ⟨7, 1, "ADJUSTMENT", 3, none, none⟩ rfl⟩

/-- C2: `get_low_stock_products` returns exactly the per-product stock rows
whose current stock is at most the reorder level, and the result is sorted
ascending by current stock. -/
theorem c2_low_stock_products (db : DB) (r : InventoryRow) :
    (r ∈ get_low_stock_products db ↔
      (∃ p ∈ db.products, inventory_row db p = r) ∧
        r.current_stock ≤ r.reorder_level) ∧
    (get_low_stock_products db).Sorted stockLE := by
  constructor
  · unfold get_low_stock_products
    rw [List.mem_insertionSort, List.mem_filter, List.mem_map]
    simp only [decide_eq_true_eq]
  · exact List.sorted_insertionSort stockLE _

/-- C3: `get_inventory_value` returns the spec's total value
(Σ stock × price over all products, negative stock included), the
unweighted mean price, and the bare product count; an empty product set
yields all-zero aggregates. -/
theorem c3_inventory_value (db : DB) :
    (get_inventory_value db).total_value = spec_total_value db ∧
    (get_inventory_value db).avg_price = spec_avg_price db ∧
    (get_inventory_value db).total_products = db.products.length ∧
    (db.products = [] → get_inventory_value db = ⟨0, 0, 0⟩) := by
  refine ⟨?_, ?_, rfl, ?_⟩
  · unfold get_inventory_value spec_total_value
    simp only [get_product_stock_eq_spec]
  · by_cases h : db.products = [] <;>
      simp [get_inventory_value, spec_avg_price, h, List.length_eq_zero]
  · intro h
    simp [get_inventory_value, h]

theorem c3_inventory_value_witness :
    (get_inventory_value dbW1).total_value = spec_total_value dbW1 ∧
    (get_inventory_value dbW1).avg_price = spec_avg_price dbW1 ∧
    (get_inventory_value dbW1).total_products = dbW1.products.length ∧
    (dbW1.products = [] → get_inventory_value dbW1 = ⟨0, 0, 0⟩) :=
  c3_inventory_value dbW1

/-- C4: every create operation fails closed: a duplicate category name, a
dangling `category_id`, `product_id` or `supplier_id` reference, or an
invalid `transaction_type` yields the no-id sentinel with the store left
unchanged; in particular an invalid transaction type is rejected by the
Python-side check irrespective of any store-level condition. -/
theorem c4_create_fail_closed (db : DB) (nm : String) (d : Option String)
    (cid : Nat) (pr : Rat) (rl : Int) (pid : Nat) (tt : String) (q : Int)
    (sid : Option Nat) (nt : Option String) (sid2 : Nat) :
    ((∃ c ∈ db.categories, c.name = nm) →
      create_category db nm d = (none, db)) ∧
    ((∀ c ∈ db.categories, c.id ≠ cid) →
      create_product db nm d (some cid) pr rl = (none, db)) ∧
    (tt ∉ (["IN", "OUT", "ADJUSTMENT"] : List String) →
      create_transaction db pid tt q sid nt = (none, db)) ∧
    ((∀ p ∈ db.products, p.id ≠ pid) →
      create_transaction db pid tt q sid nt = (none, db)) ∧
    ((∀ s ∈ db.suppliers, s.id ≠ sid2) →
      create_transaction db pid tt q (some sid2) nt = (none, db)) := by
  refine ⟨?_, ?_, ?_, ?_, ?_⟩
  · rintro ⟨c, hc, he⟩
    have hdup : db.categories.any (fun k => k.name == nm) = true :=
      List.any_eq_true.mpr ⟨c, hc, by simp [he]⟩
    simp [create_category, hdup]
  · intro h
    have hfk : db.categories.any (fun k => k.id == cid) = false := by
      rw [List.any_eq_false]
      intro c hc
      simp [h c hc]
    simp [create_product, hfk]
  · intro h
    have h1 : tt ≠ "IN" := fun he => h (by simp [he])
    have h2 : tt ≠ "OUT" := fun he => h (by simp [he])
    have h3 : tt ≠ "ADJUSTMENT" := fun he => h (by simp [he])
    have hv : valid_tx_type tt = false := by simp [valid_tx_type, h1, h2, h3]
    simp [create_transaction, hv]
  · intro h
    have hpp : db.products.any (fun p => p.id == pid) = false := by
      rw [List.any_eq_false]
      intro p hp
      simp [h p hp]
    by_cases hv : valid_tx_type tt = true <;>
      simp [create_transaction, hv, hpp]
  · intro h
    have hss : db.suppliers.any (fun x => x.id == sid2) = false := by
      rw [List.any_eq_false]
      intro x hx
      simp [h x hx]
    by_cases hv : valid_tx_type tt = true <;>
      by_cases hp2 : db.products.any (fun p => p.id == pid) = true <;>
        simp [create_transaction, hv, hp2, hss]

/-- The store used by the C4 witness: one category, one supplier, one
product, no transactions. -/
def dbW4 : DB :=
  ⟨[⟨1, "Electronics", none⟩], [⟨1, "TechCorp", none, none⟩],
    [⟨1, "Laptop", none, some 1, 999, 5⟩], [], 2, 2, 2, 1⟩

theorem c4_create_fail_closed_witness :
    ((∃ c ∈ dbW4.categories, c.name = "Electronics") →
      create_category dbW4 "Electronics" none = (none, dbW4)) ∧
    ((∀ c ∈ dbW4.categories, c.id ≠ 99) →
      create_product dbW4 "Electronics" none (some 99) 1 10 = (none, dbW4)) ∧
    (("BAD" : String) ∉ (["IN", "OUT", "ADJUSTMENT"] : List String) →
      create_transaction dbW4 42 "BAD" 5 none none = (none, dbW4)) ∧
    ((∀ p ∈ dbW4.products, p.id ≠ 42) →
      create_transaction dbW4 42 "BAD" 5 none none = (none, dbW4)) ∧
    ((∀ s ∈ dbW4.suppliers, s.id ≠ 77) →
      create_transaction dbW4 42 "BAD" 5 (some 77) none = (none, dbW4)) :=
  c4_create_fail_closed dbW4 "Electronics" none 99 1 10 42 "BAD" 5 none none 77

/-- C5: deleting a category with a dependent product is refused with the
store unchanged; deleting an existing category with no dependent products
succeeds and removes exactly that category; deleting a product or supplier
with dependent transactions is likewise refused with the store unchanged. -/
theorem c5_delete_dependency_checks (db : DB) (cid1 cid2 pid sid : Nat) :
    ((∃ p ∈ db.products, p.category_id = some cid1) →
      delete_category db cid1 = (false, db)) ∧
    ((∀ p ∈ db.products, p.category_id ≠ some cid2) →
      (∃ c ∈ db.categories, c.id = cid2) →
        (delete_category db cid2).1 = true ∧
        (∀ c ∈ (delete_category db cid2).2.categories, c.id ≠ cid2) ∧
        (delete_category db cid2).2.suppliers = db.suppliers ∧
        (delete_category db cid2).2.products = db.products ∧
        (delete_category db cid2).2.transactions = db.transactions) ∧
    ((∃ t ∈ db.transactions, t.product_id = pid) →
      delete_product db pid = (false, db)) ∧
    ((∃ t ∈ db.transactions, t.supplier_id = some sid) →
      delete_supplier db sid = (false, db)) := by
  refine ⟨?_, ?_, ?_, ?_⟩
  · rintro ⟨p, hp, he⟩
    have hdep : db.products.any (fun u => u.category_id == some cid1) = true :=
      List.any_eq_true.mpr ⟨p, hp, by simp [he]⟩
    simp [delete_category, hdep]
  · intro h hex
    have hdep : db.products.any (fun u => u.category_id == some cid2) = false := by
      rw [List.any_eq_false]
      intro p hp
      simp [h p hp]
    rcases hex with ⟨c, hc, he⟩
    have hany : db.categories.any (fun u => u.id == cid2) = true :=
      List.any_eq_true.mpr ⟨c, hc, by simp [he]⟩
    refine ⟨by simp [delete_category, hdep, hany], ?_, by simp [delete_category, hdep],
      by simp [delete_category, hdep], by simp [delete_category, hdep]⟩
    intro u hu
    have hu2 : u ∈ db.categories ∧ ¬u.id = cid2 := by
      simpa [delete_category, hdep] using hu
    exact hu2.2
  · rintro ⟨t, ht, he⟩
    have hdep : db.transactions.any (fun u => u.product_id == pid) = true :=
      List.any_eq_true.mpr ⟨t, ht, by simp [he]⟩
    simp [delete_product, hdep]
  · rintro ⟨t, ht, he⟩
    have hdep : db.transactions.any (fun u => u.supplier_id == some sid) = true :=
      List.any_eq_true.mpr ⟨t, ht, by simp [he]⟩
    simp [delete_supplier, hdep]

/-- The store used by the C5 witness: category 1 is referenced by the
product, category 2 is unreferenced; the product and the supplier are both
referenced by the transaction. -/
def dbW5 : DB :=
  ⟨[⟨1, "Electronics", none⟩, ⟨2, "Books", none⟩],
    [⟨1, "TechCorp", none, none⟩],
    [⟨1, "Laptop", none, some 1, 999, 5⟩],
    [⟨1, 1, "IN", 5, some 1, none⟩], 3, 2, 2, 2⟩

theorem c5_delete_dependency_checks_witness :
    ((∃ p ∈ dbW5.products, p.category_id = some 1) →
      delete_category dbW5 1 = (false, dbW5)) ∧
    ((∀ p ∈ dbW5.products, p.category_id ≠ some 2) →
      (∃ c ∈ dbW5.categories, c.id = 2) →
        (delete_category dbW5 2).1 = true ∧
        (∀ c ∈ (delete_category dbW5 2).2.categories, c.id ≠ 2) ∧
        (delete_category dbW5 2).2.suppliers = dbW5.suppliers ∧
        (delete_category dbW5 2).2.products = dbW5.products ∧
        (delete_category dbW5 2).2.transactions = dbW5.transactions) ∧
    ((∃ t ∈ dbW5.transactions, t.product_id = 1) →
      delete_product dbW5 1 = (false, dbW5)) ∧
    ((∃ t ∈ dbW5.transactions, t.supplier_id = some 1) →
      delete_supplier dbW5 1 = (false, dbW5)) :=
  c5_delete_dependency_checks dbW5 1 2 1 1

/-- C6: deleting an existing transaction succeeds with no dependency or
ledger-consistency check, whatever its type; afterwards the derived stock
of its product loses the transaction's IN contribution and regains its OUT
contribution (ADJUSTMENT rows change nothing). -/
theorem c6_delete_transaction_unchecked (db : DB) (t : Transaction)
    (h1 : t ∈ db.transactions)
    (h2 : (db.transactions.map (fun u => u.id)).Nodup) :
    (delete_transaction db t.id).1 = true ∧
    get_product_stock (delete_transaction db t.id).2 t.product_id =
      get_product_stock db t.product_id -
        (if t.transaction_type = "IN" then t.quantity else 0) +
        (if t.transaction_type = "OUT" then t.quantity else 0) := by
  constructor
  · simp only [delete_transaction]
    exact List.any_eq_true.mpr ⟨t, h1, by simp⟩
  · have hperm := stock_of_list_perm (perm_cons_filter_ne_id h1 h2) t.product_id
    rw [stock_of_list_cons, if_pos rfl] at hperm
    show stock_of_list (db.transactions.filter (fun u => !(u.id == t.id)))
        t.product_id =
      stock_of_list db.transactions t.product_id -
        (if t.transaction_type = "IN" then t.quantity else 0) +
        (if t.transaction_type = "OUT" then t.quantity else 0)
    unfold txn_in_amount txn_out_amount at hperm
    omega

theorem c6_delete_transaction_unchecked_witness :
    (⟨1, 1, "IN", 5, none, none⟩ : Transaction) ∈ dbW1.transactions ∧
    (dbW1.transactions.map (fun u => u.id)).Nodup ∧
    ((delete_transaction dbW1 (1 : Nat)).1 = true ∧
      get_product_stock (delete_transaction dbW1 (1 : Nat)).2 1 =
        get_product_stock dbW1 1 -
          (if ("IN" : String) = "IN" then (5 : Int) else 0) +
          (if ("IN" : String) = "OUT" then (5 : Int) else 0)) :=
  ⟨by decide, by decide,
    c6_delete_transaction_unchecked dbW1 ⟨1, 1, "IN", 5, none, none⟩
      (by decide) (by decide)⟩

/-- C10: `create_transaction` does not validate the quantity: with a valid
product and type it succeeds for every integer quantity (zero and negative
included), and the derived stock moves by exactly `+q` for IN and `-q` for
OUT. -/
theorem c10_transaction_quantity_unvalidated (db : DB) (pid : Nat) (q : Int)
    (nt : Option String) (hp : ∃ p ∈ db.products, p.id = pid) :
    (create_transaction db pid "IN" q none nt).1 = some db.next_transaction_id ∧
    get_product_stock (create_transaction db pid "IN" q none nt).2 pid =
      get_product_stock db pid + q ∧
    (create_transaction db pid "OUT" q none nt).1 = some db.next_transaction_id ∧
    get_product_stock (create_transaction db pid "OUT" q none nt).2 pid =
      get_product_stock db pid - q := by
  rcases hp with ⟨p, hmem, hid⟩
  have hany : db.products.any (fun u => u.id == pid) = true :=
    List.any_eq_true.mpr ⟨p, hmem, by simp [hid]⟩
  have hIN : create_transaction db pid "IN" q none nt =
      (some db.next_transaction_id,
        { db with
            transactions := db.transactions ++
              [⟨db.next_transaction_id, pid, "IN", q, none, nt⟩],
            next_transaction_id := db.next_transaction_id + 1 }) := by
    simp [create_transaction, valid_tx_type, hany]
  have hOUT : create_transaction db pid "OUT" q none nt =
      (some db.next_transaction_id,
        { db with
            transactions := db.transactions ++
              [⟨db.next_transaction_id, pid, "OUT", q, none, nt⟩],
            next_transaction_id := db.next_transaction_id + 1 }) := by
    simp [create_transaction, valid_tx_type, hany]
  refine ⟨by rw [hIN], ?_, by rw [hOUT], ?_⟩
  · rw [hIN]
    show stock_of_list
        (db.transactions ++ [⟨db.next_transaction_id, pid, "IN", q, none, nt⟩])
        pid = stock_of_list db.transactions pid + q
    rw [stock_of_list_append_single, if_pos rfl]
    simp +decide [txn_in_amount, txn_out_amount]
  · rw [hOUT]
    show stock_of_list
        (db.transactions ++ [⟨db.next_transaction_id, pid, "OUT", q, none, nt⟩])
        pid = stock_of_list db.transactions pid - q
    rw [stock_of_list_append_single, if_pos rfl]
    simp +decide [txn_in_amount, txn_out_amount]
    ring

theorem c10_transaction_quantity_unvalidated_witness :
    (∃ p ∈ dbW1.products, p.id = 1) ∧
    ((create_transaction dbW1 1 "IN" (-3) none none).1 =
        some dbW1.next_transaction_id ∧
      get_product_stock (create_transaction dbW1 1 "IN" (-3) none none).2 1 =
        get_product_stock dbW1 1 + (-3) ∧
      (create_transaction dbW1 1 "OUT" (-3) none none).1 =
        some dbW1.next_transaction_id ∧
      get_product_stock (create_transaction dbW1 1 "OUT" (-3) none none).2 1 =
        get_product_stock dbW1 1 - (-3)) :=
  ⟨by decide, c10_transaction_quantity_unvalidated dbW1 1 (-3) none (by decide)⟩

/-- C9 counterexample: the claimed invariant "every stored price is
non-negative" fails — a single `create_product` call from the empty store
with price `-5` succeeds and stores that negative price (no column check
and no Python-side validation exists). -/
theorem c9_counterexample :
    (create_product dbEmpty "Widget" none none (-5) 10).1 = some 1 ∧
    ((create_product dbEmpty "Widget" none none (-5) 10).2.products.map
      (fun p => p.price)) = [(-5 : Rat)] :=
  ⟨rfl, rfl⟩

/-- C9 amended: product price is not validated anywhere: `create_product`
(here with a NULL category reference, which always passes the FK check)
succeeds for every price — negative ones included — and stores exactly the
given price, so non-negativity of prices is not an invariant of the
store. -/
theorem c9_amended_price_unvalidated (db : DB) (nm : String)
    (d : Option String) (pr : Rat) (rl : Int) :
    (create_product db nm d none pr rl).1 = some db.next_product_id ∧
    (create_product db nm d none pr rl).2.products =
      db.products ++ [⟨db.next_product_id, nm, d, none, pr, rl⟩] := by
  constructor <;> simp [create_product]

/-- C7 counterexample: the search term is interpolated into the `LIKE`
pattern, so its wildcards stay live: searching for `"L_ptop"` returns the
product named `"Laptop"` (the `_` matches the `a`) even though neither its
name nor its (NULL) description contains `"L_ptop"` as a case-insensitive
substring — so search is not exactly substring matching. -/
theorem c7_counterexample :
    (⟨⟨1, "Laptop", none, none, 999, 5⟩, none⟩ : SearchRow) ∈
      search_products dbW1 "L_ptop" ∧
    spec_ci_match "L_ptop" ⟨1, "Laptop", none, none, 999, 5⟩ = false := by
  constructor
  · have hlike : search_like "L_ptop" "Laptop" = true := by
      show like_pat_match ['%', 'l', '_', 'p', 't', 'o', 'p', '%']
        ['l', 'a', 'p', 't', 'o', 'p'] = true
      simp +decide [like_pat_match]
    have hmatch : product_matches "L_ptop" ⟨1, "Laptop", none, none, 999, 5⟩ =
        true := by
      simp [product_matches, hlike]
    unfold search_products
    rw [List.mem_insertionSort, List.mem_map]
    refine ⟨⟨1, "Laptop", none, none, 999, 5⟩, ?_, rfl⟩
    exact List.mem_filter.mpr ⟨by simp [dbW1], hmatch⟩
  · rfl

/-- C7 amended: for every search term free of the `LIKE` wildcards `%` and
`_`, `search_products` returns exactly the products whose name or
description contains the term as an (ASCII) case-insensitive substring,
each joined with its category name, sorted ascending by product name, and
a wildcard-free term matching no product yields the empty list. -/
theorem c7_search_amended (db : DB) (term : String) (r : SearchRow)
    (hw : wildcard_free term.data) :
    (r ∈ search_products db term ↔
      ∃ p ∈ db.products, spec_ci_match term p = true ∧
        r = ⟨p, category_name_of db p.category_id⟩) ∧
    (search_products db term).Sorted nameLE ∧
    ((∀ p ∈ db.products, spec_ci_match term p = false) →
      search_products db term = []) := by
  refine ⟨?_, List.sorted_insertionSort nameLE _, ?_⟩
  · unfold search_products
    rw [List.mem_insertionSort, List.mem_map]
    constructor
    · rintro ⟨p, hp, rfl⟩
      have h2 := List.mem_filter.mp hp
      exact ⟨p, h2.1, by rw [← product_matches_eq_spec hw]; exact h2.2, rfl⟩
    · rintro ⟨p, hp, hm, rfl⟩
      exact ⟨p,
        List.mem_filter.mpr
          ⟨hp, by rw [product_matches_eq_spec hw]; exact hm⟩, rfl⟩
  · intro h
    have hf : db.products.filter (product_matches term) = [] := by
      apply List.filter_eq_nil_iff.mpr
      intro p hp
      rw [product_matches_eq_spec hw]
      simp [h p hp]
    unfold search_products
    rw [hf]
    rfl

theorem c7_search_amended_witness :
    wildcard_free ("Lap" : String).data ∧
    (((⟨⟨1, "Laptop", none, none, 999, 5⟩, none⟩ : SearchRow) ∈
        search_products dbW1 "Lap" ↔
      ∃ p ∈ dbW1.products, spec_ci_match "Lap" p = true ∧
        (⟨⟨1, "Laptop", none, none, 999, 5⟩, none⟩ : SearchRow) =
          ⟨p, category_name_of dbW1 p.category_id⟩) ∧
    (search_products dbW1 "Lap").Sorted nameLE ∧
    ((∀ p ∈ dbW1.products, spec_ci_match "Lap" p = false) →
      search_products dbW1 "Lap" = [])) :=
  ⟨by decide,
    c7_search_amended dbW1 "Lap" ⟨⟨1, "Laptop", none, none, 999, 5⟩, none⟩
      (by decide)⟩

/-- C8: in every store state the top-valued-products selection of the
inventory value report has at most 5 rows, is sorted descending by
`currentStock * price` and contains only rows with strictly positive
stock; moreover, whenever a positive-stock product is excluded, its
`currentStock * price` value does not exceed that of any included row. -/
theorem c8_top_valued_products (db : DB) (p : Product) (r : TopRow) :
    (top_valued_products db).length ≤ 5 ∧
    (top_valued_products db).Sorted valueGE ∧
    (∀ x ∈ top_valued_products db, 0 < x.current_stock) ∧
    (p ∈ db.products → 0 < get_product_stock db p.id →
      top_row db p ∉ top_valued_products db →
      r ∈ top_valued_products db →
      (top_row db p).total_value ≤ r.total_value) := by
  have hsorted := List.sorted_insertionSort valueGE
    ((db.products.map (top_row db)).filter (fun x => 0 < x.current_stock))
  unfold top_valued_products
  refine ⟨List.length_take_le 5 _, ?_, ?_, ?_⟩
  · exact List.Pairwise.sublist (List.take_sublist 5 _) hsorted
  · intro x hx
    have hx2 := (List.mem_insertionSort valueGE).mp (List.take_subset 5 _ hx)
    have hx3 := (List.mem_filter.mp hx2).2
    simpa using hx3
  · intro hp hpos hex hr
    have hmemL : top_row db p ∈ List.insertionSort valueGE
        ((db.products.map (top_row db)).filter (fun x => 0 < x.current_stock)) := by
      rw [List.mem_insertionSort]
      refine List.mem_filter.mpr ⟨List.mem_map_of_mem (top_row db) hp, ?_⟩
      simp only [top_row, decide_eq_true_eq]
      exact hpos
    have hpair := hsorted
    rw [← List.take_append_drop 5 (List.insertionSort valueGE
      ((db.products.map (top_row db)).filter (fun x => 0 < x.current_stock)))]
      at hpair
    have hcross := (List.pairwise_append.mp hpair).2.2
    have hmem2 : top_row db p ∈
        List.take 5 (List.insertionSort valueGE
          ((db.products.map (top_row db)).filter (fun x => 0 < x.current_stock))) ++
        List.drop 5 (List.insertionSort valueGE
          ((db.products.map (top_row db)).filter (fun x => 0 < x.current_stock))) := by
      rw [List.take_append_drop]
      exact hmemL
    rcases List.mem_append.mp hmem2 with h | h
    · exact absurd h hex
    · exact hcross r hr (top_row db p) h

/-- The store used by the C8 witness: six uncategorised products with unit
price and stocks 1..6 from one IN transaction each, so the report keeps
the five most valuable (stocks 6..2) and excludes the positive-stock
product of value 1. -/
def dbW8 : DB :=
  ⟨[], [],
    [⟨1, "A", none, none, 1, 0⟩, ⟨2, "B", none, none, 1, 0⟩,
      ⟨3, "C", none, none, 1, 0⟩, ⟨4, "D", none, none, 1, 0⟩,
      ⟨5, "E", none, none, 1, 0⟩, ⟨6, "F", none, none, 1, 0⟩],
    [⟨1, 1, "IN", 1, none, none⟩, ⟨2, 2, "IN", 2, none, none⟩,
      ⟨3, 3, "IN", 3, none, none⟩, ⟨4, 4, "IN", 4, none, none⟩,
      ⟨5, 5, "IN", 5, none, none⟩, ⟨6, 6, "IN", 6, none, none⟩],
    1, 1, 7, 7⟩

theorem top_valued_products_dbW8_eval :
    top_valued_products dbW8 =
      [⟨"F", none, 6, 1, 6⟩, ⟨"E", none, 5, 1, 5⟩, ⟨"D", none, 4, 1, 4⟩,
        ⟨"C", none, 3, 1, 3⟩, ⟨"B", none, 2, 1, 2⟩] := by
  have hIO : (("IN" : String) = "OUT") = False := by simp
  norm_num [top_valued_products, top_row, dbW8, get_product_stock,
    stock_of_list, txn_in_amount, txn_out_amount, category_name_of,
    List.insertionSort, List.orderedInsert, valueGE, hIO]

theorem c8_top_valued_products_witness :
    (⟨1, "A", none, none, 1, 0⟩ : Product) ∈ dbW8.products ∧
    0 < get_product_stock dbW8 1 ∧
    top_row dbW8 ⟨1, "A", none, none, 1, 0⟩ ∉ top_valued_products dbW8 ∧
    (⟨"F", none, 6, 1, 6⟩ : TopRow) ∈ top_valued_products dbW8 ∧
    ((top_valued_products dbW8).length ≤ 5 ∧
      (top_valued_products dbW8).Sorted valueGE ∧
      (∀ x ∈ top_valued_products dbW8, 0 < x.current_stock) ∧
      (top_row dbW8 ⟨1, "A", none, none, 1, 0⟩).total_value ≤
        (⟨"F", none, 6, 1, 6⟩ : TopRow).total_value) := by
  have hex : top_row dbW8 ⟨1, "A", none, none, 1, 0⟩ ∉ top_valued_products dbW8 := by
    rw [top_valued_products_dbW8_eval]
    have hIO : (("IN" : String) = "OUT") = False := by simp
    norm_num [top_row, dbW8, get_product_stock, stock_of_list, txn_in_amount,
      txn_out_amount, category_name_of, hIO]
  have hr : (⟨"F", none, 6, 1, 6⟩ : TopRow) ∈ top_valued_products dbW8 := by
    rw [top_valued_products_dbW8_eval]
    simp
  have hmain := c8_top_valued_products dbW8 ⟨1, "A", none, none, 1, 0⟩
    ⟨"F", none, 6, 1, 6⟩
  exact ⟨by decide, by decide, hex, hr, hmain.1, hmain.2.1, hmain.2.2.1,
    hmain.2.2.2 (by decide) (by decide) hex hr⟩

end SQL310
